import Mathlib

/-!
Verification of the Google-Sheets ingestion pipeline
(`src/components/google-sheets-loader.tsx`): the spreadsheet-id locator
`extractSpreadsheetId`, the fetch pipeline `fetchGoogleSheetData`
(guards, row normalization, record filter) and
`validateGoogleSheetConnection`.

Modelling conventions:
* JavaScript runtime values that can flow through the pipeline are
  modelled by `JSVal` (strings, numbers, `NaN`, `±Infinity`, `null`,
  `undefined`).  JavaScript numbers are modelled exactly over `ℚ`
  (binary64 rounding is not modelled; no claim here depends on it),
  with `NaN` and the infinities as separate constructors.
* The dynamically-built `deal` object is an insertion-ordered
  association list (`Obj`), with JavaScript property-assignment
  (`objSet`) and property-read (`objGet`, absent key = `undefined`).
* Network responses are a passed-in `HttpResponse` value; `Date.now()`
  is a passed-in natural number `now`.
* `parseFloat` / `parseInt(·, 10)` / `Number(·)` string coercion are
  modelled on exact rationals, following the ECMAScript grammar for
  decimal literals (hex/octal/binary `Number` literals are not
  modelled; in this pipeline `Number` coercion is never applied to a
  string).
-/

/-- A JavaScript runtime value as it occurs in this pipeline. -/
inductive JSVal where
  | str (s : String)
  | num (q : ℚ)
  | nan
  | inf
  | ninf
  | null
  | undefined
deriving DecidableEq, Repr

/-- The dynamically-assembled `deal` object: insertion-ordered key/value list. -/
abbrev Obj := List (String × JSVal)

/-- JavaScript property read: `o[k]`, `undefined` when the key is absent. -/
def objGet : Obj → String → JSVal
  | [], _ => .undefined
  | (k', v) :: rest, k => if k' = k then v else objGet rest k

/-- JavaScript property assignment `o[k] = v`: overwrite in place or append. -/
def objSet : Obj → String → JSVal → Obj
  | [], k, v => [(k, v)]
  | (k', v') :: rest, k, v =>
      if k' = k then (k, v) :: rest else (k', v') :: objSet rest k v

/-- JavaScript truthiness of a value. -/
def truthy : JSVal → Bool
  | .str s => s ≠ ""
  | .num q => q ≠ 0
  | .nan => false
  | .inf => true
  | .ninf => true
  | .null => false
  | .undefined => false

/-- JavaScript `a || b`. -/
def jsOr (a b : JSVal) : JSVal := if truthy a then a else b

/-- Decimal digit characters. -/
def isDigitChar (c : Char) : Bool := '0' ≤ c && c ≤ '9'

/-- Numeric value of a decimal digit character. -/
def digitVal (c : Char) : ℕ := c.toNat - '0'.toNat

/-- Value of a big-endian list of decimal digit characters. -/
def digitsVal (l : List Char) : ℕ :=
  l.foldl (fun acc c => 10 * acc + digitVal c) 0

/-- Value of an integer-part digit list as a rational. -/
def intPartVal (l : List Char) : ℚ := (digitsVal l : ℚ)

/-- Value of a fraction-part digit list (digits after the decimal point). -/
def fracPartVal : List Char → ℚ
  | [] => 0
  | c :: cs => ((digitVal c : ℚ) + fracPartVal cs) / 10

/-- Strip an optional leading sign; `true` means negative. -/
def stripSign : List Char → Bool × List Char
  | '+' :: cs => (false, cs)
  | '-' :: cs => (true, cs)
  | cs => (false, cs)

/-- Parse the ECMAScript decimal-significand prefix
`Digits [. Digits?] | . Digits` of a character list; returns its exact
rational value and the unconsumed rest, or `none` when no significand
is present. -/
def parseSignificand (cs : List Char) : Option (ℚ × List Char) :=
  let ip := cs.takeWhile isDigitChar
  let r1 := cs.dropWhile isDigitChar
  match r1 with
  | '.' :: r2 =>
      let fp := r2.takeWhile isDigitChar
      let r3 := r2.dropWhile isDigitChar
      if ip = [] && fp = [] then none
      else some (intPartVal ip + fracPartVal fp, r3)
  | _ => if ip = [] then none else some (intPartVal ip, r1)

/-- Consume an optional ECMAScript exponent part `[eE] [+-]? Digits` and
scale the value accordingly; an incomplete exponent (no digits) is not
consumed, matching the longest-valid-prefix regime of `parseFloat`. -/
def applyExponent (q : ℚ) (cs : List Char) : ℚ :=
  match cs with
  | e :: r1 =>
      if e = 'e' || e = 'E' then
        let ed := (stripSign r1).2.takeWhile isDigitChar
        if ed = [] then q
        else if (stripSign r1).1 then q / (10 : ℚ) ^ digitsVal ed
        else q * (10 : ℚ) ^ digitsVal ed
      else q
  | [] => q

/-- The characters of the keyword `Infinity`. -/
def infinityChars : List Char := ['I', 'n', 'f', 'i', 'n', 'i', 't', 'y']

/-- JavaScript `parseFloat`: skip leading whitespace, optional sign,
then the longest decimal-literal or `Infinity` prefix; no valid prefix
gives `NaN`.  Exact over `ℚ`. -/
def jsParseFloat (s : String) : JSVal :=
  let cs := s.toList.dropWhile Char.isWhitespace
  let neg := (stripSign cs).1
  let cs1 := (stripSign cs).2
  if infinityChars.isPrefixOf cs1 then
    if neg then .ninf else .inf
  else
    match parseSignificand cs1 with
    | none => .nan
    | some pr =>
        let v := applyExponent pr.1 pr.2
        .num (if neg then -v else v)

/-- JavaScript `parseInt(s, 10)`: skip leading whitespace, optional
sign, then the longest decimal-digit prefix; no digits gives `NaN`. -/
def jsParseInt (s : String) : JSVal :=
  let cs := s.toList.dropWhile Char.isWhitespace
  let neg := (stripSign cs).1
  let ds := (stripSign cs).2.takeWhile isDigitChar
  if ds = [] then .nan
  else .num (if neg then -(digitsVal ds : ℚ) else (digitsVal ds : ℚ))

/-- ECMAScript `Number(string)` coercion: whole-string decimal parse
after trimming; empty/whitespace-only is `0` (hex/octal/binary
literals are not modelled — in this pipeline `Number` coercion is
never applied to a string). -/
def strToNumber (s : String) : JSVal :=
  let cs := (s.toList.dropWhile Char.isWhitespace).reverse
              |>.dropWhile Char.isWhitespace |>.reverse
  if cs = [] then .num 0
  else
    let neg := (stripSign cs).1
    let cs1 := (stripSign cs).2
    if cs1 = infinityChars then (if neg then .ninf else .inf)
    else
      match parseSignificand cs1 with
      | none => .nan
      | some pr =>
          match pr.2 with
          | e :: r1 =>
              if e = 'e' || e = 'E' then
                let r2 := (stripSign r1).2
                let ed := r2.takeWhile isDigitChar
                if ed = [] || r2.dropWhile isDigitChar ≠ [] then .nan
                else
                  let v := if (stripSign r1).1 then pr.1 / (10 : ℚ) ^ digitsVal ed
                           else pr.1 * (10 : ℚ) ^ digitsVal ed
                  .num (if neg then -v else v)
              else .nan
          | [] => .num (if neg then -pr.1 else pr.1)

/-- ECMAScript `ToNumber` on a `JSVal`. -/
def toNumber : JSVal → JSVal
  | .str s => strToNumber s
  | .num q => .num q
  | .nan => .nan
  | .inf => .inf
  | .ninf => .ninf
  | .null => .num 0
  | .undefined => .nan

/-- JavaScript global `isNaN` (coerces its argument with `ToNumber`). -/
def jsIsNaN (v : JSVal) : Bool := toNumber v = .nan

/-- JavaScript `v > 0` (numeric relational comparison). -/
def jsGtZero (v : JSVal) : Bool :=
  match toNumber v with
  | .num q => 0 < q
  | .inf => true
  | _ => false

/-- Remove every `$` and `,` character: `value.replace(/[$,]/g, '')`. -/
def stripCurrency (s : String) : String :=
  (s.toList.filter (fun c => !(c = '$' || c = ','))).asString

/-- The property key a header cell is coerced to (JavaScript coerces
non-string property keys to strings; header cells are strings in
practice). -/
def keyOfCell : JSVal → String
  | .str s => s
  | .num q => toString q
  | .nan => "NaN"
  | .inf => "Infinity"
  | .ninf => "-Infinity"
  | .null => "null"
  | .undefined => "undefined"

/-- `row[colIndex] !== undefined ? row[colIndex] : null`. -/
def cellAt (row : List JSVal) (i : ℕ) : JSVal :=
  match row.getD i JSVal.undefined with
  | .undefined => .null
  | v => v

/-- The synthesized identifier for a row without one. -/
def synthDealId (now index : ℕ) : String :=
  "DEAL-" ++ toString now ++ "-" ++ toString index

/-- One iteration of the `headers.forEach` body: assign the
type-coerced cell at `(colIndex, header)` onto the deal object. -/
def assignField (row : List JSVal) (d : Obj) (p : ℕ × String) : Obj :=
  let header := p.2
  let value := cellAt row p.1
  if header = "deal_value" then
    let numValue := match value with
      | .str s => jsParseFloat (stripCurrency s)
      | v => v
    objSet d header (if jsIsNaN numValue then .num 0 else numValue)
  else if header = "process_days" then
    let numValue := match value with
      | .str s => jsParseInt s
      | v => v
    objSet d header (if jsIsNaN numValue then .null else numValue)
  else
    objSet d header value

/-- `if (!deal.deal_id) deal.deal_id = `DEAL-${Date.now()}-${index}``. -/
def fillDealId (d : Obj) (now index : ℕ) : Obj :=
  if truthy (objGet d "deal_id") then d
  else objSet d "deal_id" (.str (synthDealId now index))

/-- The four default fills:
`deal.deal_name = deal.deal_name || 'Unnamed Deal'` and likewise for
`broker_name`, `status` and `deal_value`. -/
def fillDefaults (d : Obj) : Obj :=
  let d1 := objSet d "deal_name" (jsOr (objGet d "deal_name") (.str "Unnamed Deal"))
  let d2 := objSet d1 "broker_name" (jsOr (objGet d1 "broker_name") (.str "Unknown"))
  let d3 := objSet d2 "status" (jsOr (objGet d2 "status") (.str "Unknown"))
  objSet d3 "deal_value" (jsOr (objGet d3 "deal_value") (.num 0))

/-- Normalize one data row: header-keyed assignment with type
coercion, synthetic `deal_id`, then the default fills, exactly as in
the `rows.map` callback of `fetchGoogleSheetData`.  Total: per-field
coercion failures degrade to defaults, never to an error. -/
def normalizeRow (headers : List String) (row : List JSVal) (now index : ℕ) : Obj :=
  fillDefaults (fillDealId (headers.enum.foldl (assignField row) []) now index)

/-- The record filter: `deal.deal_id && (deal.deal_name !== 'Unnamed Deal' || deal.deal_value > 0)`. -/
def filterPred (deal : Obj) : Bool :=
  truthy (objGet deal "deal_id") &&
    (decide (objGet deal "deal_name" ≠ JSVal.str "Unnamed Deal") ||
      jsGtZero (objGet deal "deal_value"))

/-- The normalization stage: map every data row through
`normalizeRow` with its index. -/
def normalizeRows (headers : List String) (rows : List (List JSVal)) (now : ℕ) :
    List Obj :=
  rows.enum.map (fun p => normalizeRow headers p.2 now p.1)

/-- The row-processing portion of `fetchGoogleSheetData`: normalize,
then filter. -/
def processRows (headers : List String) (rows : List (List JSVal)) (now : ℕ) :
    List Obj :=
  (normalizeRows headers rows now).filter filterPred

/-- JavaScript `String.prototype.trim`: drop whitespace from both
ends (modelled structurally over the character list so that it is
kernel-computable). -/
def jsTrim (s : String) : String :=
  ((s.toList.dropWhile Char.isWhitespace).reverse.dropWhile
    Char.isWhitespace).reverse.asString

/-- The regex character class `[a-zA-Z0-9-_]`. -/
def isIdChar (c : Char) : Bool := c.isAlpha || c.isDigit || c = '-' || c = '_'

/-- Try to match a pattern `<literal>([a-zA-Z0-9-_]+)` at the start of
`s`: consume the literal, then capture the (non-empty, greedy) run of
id characters. -/
def matchCapture : List Char → List Char → Option (List Char)
  | [], s =>
      let run := s.takeWhile isIdChar
      if run.isEmpty then none else some run
  | _ :: _, [] => none
  | l :: ls, c :: cs => if c = l then matchCapture ls cs else none

/-- `input.match(regex)` for a pattern `<literal>([a-zA-Z0-9-_]+)`:
the capture of the leftmost match, scanning positions left to right. -/
def findCapture (lit : List Char) : List Char → Option (List Char)
  | [] => none
  | c :: cs =>
      match matchCapture lit (c :: cs) with
      | some r => some r
      | none => findCapture lit cs

/-- `extractSpreadsheetId`: a bare input (no `/`, no `?`) is returned
trimmed; otherwise the three URL patterns are tried in order
(`/spreadsheets/d/…`, `/d/…`, `id=…`) and the first match's capture is
returned; otherwise `null` (`none`). -/
def extractSpreadsheetId (input : String) : Option String :=
  if !(input.toList.contains '/') && !(input.toList.contains '?') then
    some (jsTrim input)
  else
    match findCapture "/spreadsheets/d/".toList input.toList with
    | some r => some r.asString
    | none =>
      match findCapture "/d/".toList input.toList with
      | some r => some r.asString
      | none =>
        match findCapture "id=".toList input.toList with
        | some r => some r.asString
        | none => none

/-- A transport response: HTTP status, status text, and the decoded
JSON body's `values` field (absent, or a list of rows). -/
structure HttpResponse where
  status : ℕ
  statusText : String
  values : Option (List (List JSVal))
deriving DecidableEq, Repr

/-- `response.ok`: status in the 200–299 range. -/
def HttpResponse.ok (r : HttpResponse) : Bool := 200 ≤ r.status && r.status ≤ 299

/-- `fetchGoogleSheetData`, with the network response and `Date.now()`
passed in as values: identifier and credential guards, transport-error
mapping, empty/headers-only checks, then row processing.  Thrown
`Error`s are modelled as `Except.error` of the message string. -/
def fetchGoogleSheetData (spreadsheetId apiKey : String) (resp : HttpResponse)
    (now : ℕ) : Except String (List Obj) :=
  let sheetId := extractSpreadsheetId spreadsheetId
  if sheetId = none ∨ sheetId = some "" then
    .error "Invalid spreadsheet ID or URL"
  else if apiKey = "" ∨ jsTrim apiKey = "" then
    .error "API key is required"
  else if !resp.ok then
    if resp.status = 403 then
      .error "Access denied. Make sure the sheet is publicly accessible and the API key is valid."
    else if resp.status = 404 then
      .error "Sheet not found. Check the spreadsheet ID and range."
    else
      .error ("Failed to fetch data: " ++ resp.statusText)
  else
    match resp.values with
    | none => .error "No data found in the specified range"
    | some [] => .error "No data found in the specified range"
    | some (headerRow :: rows) =>
        if rows.isEmpty then .error "Sheet contains headers but no data rows"
        else .ok (processRows (headerRow.map keyOfCell) rows now)

/-- The `{ valid, error? }` result of `validateGoogleSheetConnection`. -/
structure ValidationResult where
  valid : Bool
  error : Option String
deriving DecidableEq, Repr

/-- `validateGoogleSheetConnection`, with the metadata response passed
in as a value. -/
def validateGoogleSheetConnection (spreadsheetId apiKey : String)
    (resp : HttpResponse) : ValidationResult :=
  let sheetId := extractSpreadsheetId spreadsheetId
  if sheetId = none ∨ sheetId = some "" then
    ⟨false, some "Invalid spreadsheet ID or URL"⟩
  else if apiKey = "" ∨ jsTrim apiKey = "" then
    ⟨false, some "API key is required"⟩
  else if !resp.ok then
    if resp.status = 403 then
      ⟨false, some "Access denied. Check your API key and sheet permissions."⟩
    else if resp.status = 404 then
      ⟨false, some "Spreadsheet not found."⟩
    else
      ⟨false, some ("Connection failed: " ++ resp.statusText)⟩
  else
    ⟨true, none⟩

/-- Number-typed JavaScript values (`typeof v === 'number'`). -/
def isNumberType : JSVal → Bool
  | .num _ => true
  | .nan => true
  | .inf => true
  | .ninf => true
  | _ => false

/-- Shape of values the `deal_value` key can hold after header
assignment: anything but a string or `NaN`. -/
def dealValueShape : JSVal → Bool
  | .nan => false
  | .str _ => false
  | _ => true

/-- Values that JSON decoding (`response.json()`) can place in a cell
of `values`: strings, (finite) numbers, or `null`. -/
def isJsonCell : JSVal → Bool
  | .str _ => true
  | .num _ => true
  | .null => true
  | _ => false

/-- Shape of values the `process_days` key can hold for JSON rows:
absent, `null`, or a finite number. -/
def processDaysShape : JSVal → Bool
  | .undefined => true
  | .null => true
  | .num _ => true
  | _ => false

/-! ### Object-operation lemmas -/

theorem objGet_objSet_self (o : Obj) (k : String) (v : JSVal) :
    objGet (objSet o k v) k = v := by
  induction o with
  | nil => simp [objSet, objGet]
  | cons p rest ih =>
      by_cases h : p.1 = k
      · simp [objSet, objGet, h]
      · simp [objSet, objGet, h, ih]

theorem objGet_objSet_ne (o : Obj) (k k' : String) (v : JSVal) (h : k' ≠ k) :
    objGet (objSet o k v) k' = objGet o k' := by
  induction o with
  | nil => simp [objSet, objGet, Ne.symm h]
  | cons p rest ih =>
      by_cases hp : p.1 = k
      · simp [objSet, objGet, hp, Ne.symm h]
      · simp [objSet, objGet, hp, ih]

theorem objGet_assignField_ne (row : List JSVal) (d : Obj) (p : ℕ × String)
    (key : String) (h : p.2 ≠ key) :
    objGet (assignField row d p) key = objGet d key := by
  unfold assignField
  dsimp only
  split
  · exact objGet_objSet_ne _ _ _ _ (Ne.symm h)
  · split
    · exact objGet_objSet_ne _ _ _ _ (Ne.symm h)
    · exact objGet_objSet_ne _ _ _ _ (Ne.symm h)

theorem objGet_foldl_assign (row : List JSVal) (key : String) :
    ∀ (l : List (ℕ × String)) (d : Obj), key ∉ l.map Prod.snd →
      objGet (l.foldl (assignField row) d) key = objGet d key := by
  intro l
  induction l with
  | nil => intro d _; rfl
  | cons p rest ih =>
      intro d hmem
      simp only [List.map_cons, List.mem_cons] at hmem
      push_neg at hmem
      rw [List.foldl_cons, ih _ hmem.2,
        objGet_assignField_ne _ _ _ _ (Ne.symm hmem.1)]

theorem cellAt_ne_undefined (row : List JSVal) (i : ℕ) :
    cellAt row i ≠ .undefined := by
  unfold cellAt
  cases row.getD i .undefined <;> simp

theorem objGet_fillDealId_ne (d : Obj) (now index : ℕ) (key : String)
    (h : key ≠ "deal_id") :
    objGet (fillDealId d now index) key = objGet d key := by
  unfold fillDealId
  by_cases ht : truthy (objGet d "deal_id") <;>
    simp [ht, objGet_objSet_ne _ _ _ _ h]

theorem objGet_fillDefaults_dealValue (d : Obj) :
    objGet (fillDefaults d) "deal_value" =
      jsOr (objGet d "deal_value") (.num 0) := by
  unfold fillDefaults
  rw [objGet_objSet_self, objGet_objSet_ne _ _ _ _ (by decide),
    objGet_objSet_ne _ _ _ _ (by decide), objGet_objSet_ne _ _ _ _ (by decide)]

theorem objGet_fillDefaults_processDays (d : Obj) :
    objGet (fillDefaults d) "process_days" = objGet d "process_days" := by
  unfold fillDefaults
  rw [objGet_objSet_ne _ _ _ _ (by decide), objGet_objSet_ne _ _ _ _ (by decide),
    objGet_objSet_ne _ _ _ _ (by decide), objGet_objSet_ne _ _ _ _ (by decide)]

/-! ### Value-shape invariants -/

theorem jsParseFloat_shape (s : String) :
    (∃ q, jsParseFloat s = .num q) ∨ jsParseFloat s = .nan ∨
      jsParseFloat s = .inf ∨ jsParseFloat s = .ninf := by
  unfold jsParseFloat
  dsimp only
  split
  · split
    · right; right; right; rfl
    · right; right; left; rfl
  · split
    · right; left; rfl
    · left; exact ⟨_, rfl⟩

theorem jsParseInt_shape (s : String) :
    (∃ q, jsParseInt s = .num q) ∨ jsParseInt s = .nan := by
  unfold jsParseInt
  dsimp only
  split
  · right; rfl
  · left; exact ⟨_, rfl⟩

theorem dealValueShape_assignField (row : List JSVal) (d : Obj) (p : ℕ × String)
    (h : dealValueShape (objGet d "deal_value") = true) :
    dealValueShape (objGet (assignField row d p) "deal_value") = true := by
  by_cases hp : p.2 = "deal_value"
  case neg => rw [objGet_assignField_ne _ _ _ _ hp]; exact h
  case pos =>
    unfold assignField
    dsimp only
    rw [if_pos hp, hp, objGet_objSet_self]
    split
    · rfl
    · rename_i hn
      rcases hcell : cellAt row p.1 with s | q | _ | _ | _ | _ | _ <;>
        rw [hcell] at hn <;> dsimp only at hn ⊢
      · rcases jsParseFloat_shape (stripCurrency s) with ⟨q, hq⟩ | hq | hq | hq <;>
          rw [hq] at hn ⊢
        · rfl
        · exact absurd rfl hn
        · rfl
        · rfl
      · rfl
      · exact absurd rfl hn
      · rfl
      · rfl
      · rfl
      · exact absurd rfl hn

theorem dealValueShape_foldl (row : List JSVal) :
    ∀ (l : List (ℕ × String)) (d : Obj),
      dealValueShape (objGet d "deal_value") = true →
      dealValueShape (objGet (l.foldl (assignField row) d) "deal_value") = true := by
  intro l
  induction l with
  | nil => intro d h; exact h
  | cons p rest ih =>
      intro d h
      rw [List.foldl_cons]
      exact ih _ (dealValueShape_assignField _ _ _ h)

theorem dealValue_normalizeRow (headers : List String) (row : List JSVal)
    (now index : ℕ) :
    isNumberType (objGet (normalizeRow headers row now index) "deal_value") = true ∧
    objGet (normalizeRow headers row now index) "deal_value" ≠ .nan := by
  unfold normalizeRow
  rw [objGet_fillDefaults_dealValue]
  have h0 : dealValueShape (objGet (fillDealId
      (headers.enum.foldl (assignField row) []) now index) "deal_value") = true := by
    rw [objGet_fillDealId_ne _ _ _ _ (by decide)]
    exact dealValueShape_foldl row _ [] rfl
  rcases hval : objGet (fillDealId
      (headers.enum.foldl (assignField row) []) now index) "deal_value"
    with s | q | _ | _ | _ | _ | _ <;> rw [hval] at h0 <;> unfold jsOr truthy
  · exact absurd h0 (by simp [dealValueShape])
  · split <;> exact ⟨rfl, by simp⟩
  · exact absurd h0 (by simp [dealValueShape])
  · exact ⟨rfl, by simp⟩
  · exact ⟨rfl, by simp⟩
  · exact ⟨rfl, by simp⟩
  · exact ⟨rfl, by simp⟩

theorem getD_mem_or_default (l : List JSVal) (i : ℕ) (d : JSVal) :
    l.getD i d ∈ l ∨ l.getD i d = d := by
  induction l generalizing i with
  | nil => right; simp [List.getD]
  | cons a t ih =>
      cases i with
      | zero => left; simp
      | succ n =>
          rcases ih n with h | h
          · left; simp only [List.getD_cons_succ]; exact List.mem_cons_of_mem _ h
          · right; simpa using h

theorem cellAt_mem_or_null (row : List JSVal) (i : ℕ) :
    cellAt row i ∈ row ∨ cellAt row i = .null := by
  unfold cellAt
  rcases getD_mem_or_default row i .undefined with h | h
  · rcases hv : row.getD i JSVal.undefined with s | q | _ | _ | _ | _ | _ <;>
      rw [hv] at h <;> first
      | (left; exact h)
      | (right; rfl)
  · rw [h]; right; rfl

theorem processDaysShape_assignField (row : List JSVal)
    (hrow : ∀ c ∈ row, isJsonCell c = true) (d : Obj) (p : ℕ × String)
    (h : processDaysShape (objGet d "process_days") = true) :
    processDaysShape (objGet (assignField row d p) "process_days") = true := by
  by_cases hp : p.2 = "process_days"
  case neg => rw [objGet_assignField_ne _ _ _ _ hp]; exact h
  case pos =>
    have hpv : p.2 ≠ "deal_value" := by rw [hp]; decide
    unfold assignField
    dsimp only
    rw [if_neg hpv, if_pos hp, hp, objGet_objSet_self]
    split
    · rfl
    · rename_i hn
      have hcellshape : isJsonCell (cellAt row p.1) = true ∨ cellAt row p.1 = .null := by
        rcases cellAt_mem_or_null row p.1 with hm | hm
        · left; exact hrow _ hm
        · right; exact hm
      rcases hcell : cellAt row p.1 with s | q | _ | _ | _ | _ | _ <;>
        rw [hcell] at hn hcellshape <;> dsimp only at hn ⊢
      · rcases jsParseInt_shape s with ⟨q, hq⟩ | hq <;> rw [hq] at hn ⊢
        · rfl
        · exact absurd rfl hn
      · rfl
      · exact absurd rfl hn
      · simp [isJsonCell] at hcellshape
      · simp [isJsonCell] at hcellshape
      · rfl
      · exact absurd rfl hn

theorem processDaysShape_foldl (row : List JSVal)
    (hrow : ∀ c ∈ row, isJsonCell c = true) :
    ∀ (l : List (ℕ × String)) (d : Obj),
      processDaysShape (objGet d "process_days") = true →
      processDaysShape (objGet (l.foldl (assignField row) d) "process_days") = true := by
  intro l
  induction l with
  | nil => intro d h; exact h
  | cons p rest ih =>
      intro d h
      rw [List.foldl_cons]
      exact ih _ (processDaysShape_assignField _ hrow _ _ h)

theorem processDays_normalizeRow (headers : List String) (row : List JSVal)
    (hrow : ∀ c ∈ row, isJsonCell c = true) (now index : ℕ) :
    processDaysShape (objGet (normalizeRow headers row now index) "process_days") = true := by
  unfold normalizeRow
  rw [objGet_fillDefaults_processDays, objGet_fillDealId_ne _ _ _ _ (by decide)]
  exact processDaysShape_foldl row hrow _ [] rfl

/-! ### Injectivity of decimal rendering (synthesized ids) -/

theorem toDigitsCore_append (fuel : ℕ) :
    ∀ (n : ℕ) (ds : List Char),
      Nat.toDigitsCore 10 fuel n ds = Nat.toDigitsCore 10 fuel n [] ++ ds := by
  induction fuel with
  | zero => intro n ds; rfl
  | succ fuel ih =>
      intro n ds
      simp only [Nat.toDigitsCore]
      split
      · rfl
      · rw [ih (n / 10) (Nat.digitChar (n % 10) :: ds),
          ih (n / 10) [Nat.digitChar (n % 10)]]
        simp

theorem digitVal_digitChar (d : ℕ) (h : d < 10) :
    digitVal (Nat.digitChar d) = d := by
  interval_cases d <;> decide

theorem digitsVal_append_singleton (l : List Char) (c : Char) :
    digitsVal (l ++ [c]) = 10 * digitsVal l + digitVal c := by
  simp [digitsVal, List.foldl_append]

theorem digitsVal_toDigitsCore (fuel : ℕ) :
    ∀ n : ℕ, n < 10 ^ fuel → digitsVal (Nat.toDigitsCore 10 fuel n []) = n := by
  induction fuel with
  | zero =>
      intro n hn
      simp only [pow_zero, Nat.lt_one_iff] at hn
      subst hn
      rfl
  | succ fuel ih =>
      intro n hn
      simp only [Nat.toDigitsCore]
      split
      · rename_i h0
        have h10 : n < 10 := by omega
        have : n % 10 = n := Nat.mod_eq_of_lt h10
        simp [digitsVal, this, digitVal_digitChar n h10]
      · rename_i h0
        rw [toDigitsCore_append, digitsVal_append_singleton]
        have hdiv : n / 10 < 10 ^ fuel := by
          rw [Nat.div_lt_iff_lt_mul (by norm_num)]
          calc n < 10 ^ (fuel + 1) := hn
            _ = 10 ^ fuel * 10 := by ring
        rw [ih _ hdiv, digitVal_digitChar _ (Nat.mod_lt _ (by norm_num))]
        omega

theorem digitsVal_repr (n : ℕ) : digitsVal (Nat.repr n).data = n := by
  have h1 : n < 10 ^ n := Nat.lt_pow_self (by norm_num) n
  have h2 : 10 ^ n ≤ 10 ^ (n + 1) := Nat.pow_le_pow_right (by norm_num) (Nat.le_succ n)
  exact digitsVal_toDigitsCore (n + 1) n (by omega)

theorem natRepr_injective (m n : ℕ) (h : Nat.repr m = Nat.repr n) : m = n := by
  have h2 := congrArg (fun s => digitsVal s.data) h
  simpa [digitsVal_repr] using h2

theorem synthDealId_injective (now i j : ℕ)
    (h : synthDealId now i = synthDealId now j) : i = j := by
  unfold synthDealId at h
  have hd := congrArg String.data h
  simp only [String.data_append, List.append_assoc] at hd
  have h1 := List.append_cancel_left hd
  have h2 := List.append_cancel_left h1
  have h3 := List.append_cancel_left h2
  exact natRepr_injective i j (String.ext h3)

/-! ### Claim C2 -/

/-- C2 (amended): every record produced by normalization has a
number-typed `deal_value` that is never `NaN`; text parses may however
yield negative or infinite values, so the value need not be
non-negative or finite. -/
theorem claim_C2_dealValue_number_never_nan (headers : List String)
    (rows : List (List JSVal)) (now : ℕ) (d : Obj)
    (hd : d ∈ normalizeRows headers rows now) :
    isNumberType (objGet d "deal_value") = true ∧
      objGet d "deal_value" ≠ JSVal.nan := by
  unfold normalizeRows at hd
  rcases List.mem_map.mp hd with ⟨p, _, rfl⟩
  exact dealValue_normalizeRow headers p.2 now p.1

/-- C2 witness: the theorem applied to a one-row table. -/
theorem claim_C2_dealValue_number_never_nan_witness :
    isNumberType (objGet (normalizeRow ["deal_id"] [JSVal.str "D1"] 0 0)
        "deal_value") = true ∧
      objGet (normalizeRow ["deal_id"] [JSVal.str "D1"] 0 0) "deal_value"
        ≠ JSVal.nan :=
  claim_C2_dealValue_number_never_nan ["deal_id"] [[JSVal.str "D1"]] 0 _
    (by decide)

/-- C2 counterexample: a cell `"-5"` normalizes to the negative
`deal_value` −5, and a cell `"Infinity"` to `Infinity`, refuting the
claimed non-negativity and finiteness. -/
theorem claim_C2_counterexample :
    objGet (normalizeRow ["deal_id", "deal_name", "deal_value"]
        [JSVal.str "D1", JSVal.str "A", JSVal.str "-5"] 0 0) "deal_value"
      = JSVal.num (-5)
    ∧ (-5 : ℚ) < 0
    ∧ objGet (normalizeRow ["deal_id", "deal_name", "deal_value"]
        [JSVal.str "D2", JSVal.str "B", JSVal.str "Infinity"] 0 1) "deal_value"
      = JSVal.inf := by
  refine ⟨by decide, by norm_num, by decide⟩

/-! ### Claim C8 -/

/-- C8 (amended): for JSON-decoded tables, a present (non-`null`)
`process_days` is a finite number; it is an integer when it came from
a text parse, but it may be negative, and non-string numeric cells
pass through unchanged (possibly non-integral). -/
theorem claim_C8_processDays_finite_when_present (headers : List String)
    (rows : List (List JSVal)) (now : ℕ) (d : Obj)
    (hjson : ∀ row ∈ rows, ∀ c ∈ row, isJsonCell c = true)
    (hd : d ∈ normalizeRows headers rows now)
    (hnull : objGet d "process_days" ≠ JSVal.null)
    (habs : objGet d "process_days" ≠ JSVal.undefined) :
    ∃ q : ℚ, objGet d "process_days" = JSVal.num q := by
  unfold normalizeRows at hd
  rcases List.mem_map.mp hd with ⟨p, hp, rfl⟩
  have hmem : p.2 ∈ rows := by
    have h1 : p.2 ∈ rows.enum.map Prod.snd := List.mem_map_of_mem Prod.snd hp
    rwa [show rows.enum.map Prod.snd = rows from List.enumFrom_map_snd 0 rows] at h1
  have hshape := processDays_normalizeRow headers p.2 (hjson p.2 hmem) now p.1
  rcases hv : objGet (normalizeRow headers p.2 now p.1) "process_days"
    with s | q | _ | _ | _ | _ | _ <;> rw [hv] at hshape hnull habs
  · exact absurd hshape (by simp [processDaysShape])
  · exact ⟨q, rfl⟩
  · exact absurd hshape (by simp [processDaysShape])
  · exact absurd hshape (by simp [processDaysShape])
  · exact absurd hshape (by simp [processDaysShape])
  · exact absurd rfl hnull
  · exact absurd rfl habs

/-- C8 witness: the theorem applied to a table whose `process_days`
cell is the text `"7"`. -/
theorem claim_C8_processDays_finite_when_present_witness :
    ∃ q : ℚ, objGet (normalizeRow ["deal_id", "process_days"]
      [JSVal.str "D1", JSVal.str "7"] 0 0) "process_days" = JSVal.num q :=
  claim_C8_processDays_finite_when_present ["deal_id", "process_days"]
    [[JSVal.str "D1", JSVal.str "7"]] 0 _ (by decide) (by decide)
    (by decide) (by decide)

/-- C8 counterexample: the text cell `"-3"` yields `process_days = −3`
(negative), and the numeric cell `5/2` passes through non-integral,
refuting "non-negative integer". -/
theorem claim_C8_counterexample :
    objGet (normalizeRow ["deal_id", "deal_name", "process_days"]
        [JSVal.str "D1", JSVal.str "A", JSVal.str "-3"] 0 0) "process_days"
      = JSVal.num (-3)
    ∧ (-3 : ℚ) < 0
    ∧ objGet (normalizeRow ["deal_id", "deal_name", "process_days"]
        [JSVal.str "D2", JSVal.str "B", JSVal.num (5 / 2)] 0 1) "process_days"
      = JSVal.num (5 / 2)
    ∧ ¬ ∃ k : ℤ, (5 : ℚ) / 2 = (k : ℚ) := by
  refine ⟨by decide, by norm_num, rfl, ?_⟩
  rintro ⟨k, hk⟩
  rw [div_eq_iff (by norm_num : (2 : ℚ) ≠ 0)] at hk
  have h5 : (5 : ℤ) = k * 2 := by exact_mod_cast hk
  omega

/-! ### Claim C3 -/

/-- C3 (amended): every record in an ingestion result has a truthy
(for strings: non-empty) `deal_id`, and synthesized ids built from the
timestamp and row index are pairwise distinct for distinct row indices
even within the same millisecond; ids copied from the source are not
deduplicated, however, so distinctness of all ids in a result is not
guaranteed. -/
theorem claim_C3_dealId_truthy_and_synth_distinct :
    (∀ (headers : List String) (rows : List (List JSVal)) (now : ℕ),
      ∀ d ∈ processRows headers rows now, truthy (objGet d "deal_id") = true) ∧
    (∀ now i j : ℕ, synthDealId now i = synthDealId now j → i = j) := by
  constructor
  · intro headers rows now d hd
    unfold processRows at hd
    have hf := (List.mem_filter.mp hd).2
    unfold filterPred at hf
    exact ((Bool.and_eq_true _ _).mp hf).1
  · exact synthDealId_injective

/-- C3 witness: the theorem applied to a one-row table and to the
synthesized ids of rows 2 and 2. -/
theorem claim_C3_dealId_truthy_and_synth_distinct_witness :
    truthy (objGet (normalizeRow ["deal_id", "deal_name"]
      [JSVal.str "D1", JSVal.str "A"] 0 0) "deal_id") = true ∧ (2 : ℕ) = 2 :=
  ⟨claim_C3_dealId_truthy_and_synth_distinct.1 ["deal_id", "deal_name"]
      [[JSVal.str "D1", JSVal.str "A"]] 0 _ (by decide),
    claim_C3_dealId_truthy_and_synth_distinct.2 0 2 2 rfl⟩

/-- C3 counterexample: two rows that both carry the source id `"D1"`
survive into one ingestion result with equal `deal_id`s, refuting
pairwise distinctness. -/
theorem claim_C3_counterexample :
    (processRows ["deal_id", "deal_name"]
        [[JSVal.str "D1", JSVal.str "A"], [JSVal.str "D1", JSVal.str "B"]] 0).length = 2
    ∧ objGet ((processRows ["deal_id", "deal_name"]
        [[JSVal.str "D1", JSVal.str "A"], [JSVal.str "D1", JSVal.str "B"]] 0).getD 0 [])
        "deal_id"
      = objGet ((processRows ["deal_id", "deal_name"]
        [[JSVal.str "D1", JSVal.str "A"], [JSVal.str "D1", JSVal.str "B"]] 0).getD 1 [])
        "deal_id" := by
  exact ⟨by decide, by decide⟩

/-! ### Claim C5 -/

/-- C5: when the `process_days` cell is text that fails integer
parsing, normalization yields `process_days = null` (not `0`), and —
normalization being a total function — no error is raised for the row
or the batch. -/
theorem claim_C5_processDays_null_on_parse_failure (pre post : List String)
    (row : List JSVal) (s : String) (now index : ℕ)
    (hpost : "process_days" ∉ post)
    (hcell : cellAt row pre.length = JSVal.str s)
    (hparse : jsParseInt s = JSVal.nan) :
    objGet (normalizeRow (pre ++ "process_days" :: post) row now index)
      "process_days" = JSVal.null := by
  unfold normalizeRow
  rw [objGet_fillDefaults_processDays, objGet_fillDealId_ne _ _ _ _ (by decide)]
  rw [List.enum_append, List.enumFrom_cons, List.foldl_append, List.foldl_cons]
  rw [objGet_foldl_assign row _ _ _
    (by simpa [List.enumFrom_map_snd] using hpost)]
  unfold assignField
  dsimp only
  rw [if_neg (by decide), if_pos rfl, objGet_objSet_self, hcell]
  dsimp only
  rw [hparse]
  rfl

/-- C5 witness: the theorem applied to the cell `"N/A"`. -/
theorem claim_C5_processDays_null_on_parse_failure_witness :
    objGet (normalizeRow ["deal_id", "process_days", "status"]
      [JSVal.str "D1", JSVal.str "N/A", JSVal.str "Open"] 0 0)
      "process_days" = JSVal.null :=
  claim_C5_processDays_null_on_parse_failure ["deal_id"] ["status"]
    [JSVal.str "D1", JSVal.str "N/A", JSVal.str "Open"] "N/A" 0 0
    (by decide) (by decide) (by decide)

/-! ### Claim C4 -/

/-- C4: the filter keeps a candidate exactly when its `deal_id` is
non-empty (truthy) and its `deal_name` differs from `"Unnamed Deal"`
or its `deal_value` is strictly positive; a blank row (synthesized id,
default name, value 0) is dropped, a default-named row with value 5 is
kept, and a real-named row with value 0 is kept. -/
theorem claim_C4_filter_keeps_iff :
    (∀ (d : Obj) (s : String), objGet d "deal_id" = JSVal.str s →
      (filterPred d = true ↔ (s ≠ "" ∧ (objGet d "deal_name" ≠ JSVal.str "Unnamed Deal"
        ∨ jsGtZero (objGet d "deal_value") = true)))) ∧
    filterPred (normalizeRow ["deal_id", "deal_name", "deal_value"]
      [JSVal.str "", JSVal.str "", JSVal.str ""] 0 0) = false ∧
    filterPred (normalizeRow ["deal_id", "deal_name", "deal_value"]
      [JSVal.str "", JSVal.str "", JSVal.str "5"] 0 0) = true ∧
    filterPred (normalizeRow ["deal_id", "deal_name", "deal_value"]
      [JSVal.str "D9", JSVal.str "Real Deal", JSVal.str "0"] 0 0) = true := by
  refine ⟨?_, by decide, by decide, by decide⟩
  intro d s hs
  unfold filterPred
  rw [hs]
  simp [truthy, Bool.and_eq_true, Bool.or_eq_true, decide_eq_true_eq]

/-- C4 witness: the iff component applied to a concrete record. -/
theorem claim_C4_filter_keeps_iff_witness :
    filterPred [("deal_id", JSVal.str "D1")] = true ↔
      ("D1" ≠ "" ∧ (objGet [("deal_id", JSVal.str "D1")] "deal_name"
          ≠ JSVal.str "Unnamed Deal"
        ∨ jsGtZero (objGet [("deal_id", JSVal.str "D1")] "deal_value") = true)) :=
  claim_C4_filter_keeps_iff.1 [("deal_id", JSVal.str "D1")] "D1" rfl

/-! ### Claim C7 -/

theorem keyGuard_false (apiKey : String) (hkey : jsTrim apiKey ≠ "") :
    ¬(apiKey = "" ∨ jsTrim apiKey = "") := by
  rintro (h | h)
  · exact hkey (by rw [h]; rfl)
  · exact hkey h

/-- C7 (amended): `validateGoogleSheetConnection` returns the
invalid-identifier reason when the locator yields nothing or the empty
string, the missing-credential reason when the credential is blank,
and otherwise maps the response with the code's actual strings:
403 → `"Access denied. Check your API key and sheet permissions."`,
404 → `"Spreadsheet not found."`, any other non-success →
`"Connection failed: <status text>"`, success → `{valid: true}`. -/
theorem claim_C7_validate_mapping (spreadsheetId apiKey : String)
    (resp : HttpResponse) :
    (extractSpreadsheetId spreadsheetId = none
        ∨ extractSpreadsheetId spreadsheetId = some "" →
      validateGoogleSheetConnection spreadsheetId apiKey resp
        = ⟨false, some "Invalid spreadsheet ID or URL"⟩) ∧
    (¬(extractSpreadsheetId spreadsheetId = none
        ∨ extractSpreadsheetId spreadsheetId = some "") →
      jsTrim apiKey = "" →
      validateGoogleSheetConnection spreadsheetId apiKey resp
        = ⟨false, some "API key is required"⟩) ∧
    (¬(extractSpreadsheetId spreadsheetId = none
        ∨ extractSpreadsheetId spreadsheetId = some "") →
      jsTrim apiKey ≠ "" → resp.status = 403 →
      validateGoogleSheetConnection spreadsheetId apiKey resp
        = ⟨false, some "Access denied. Check your API key and sheet permissions."⟩) ∧
    (¬(extractSpreadsheetId spreadsheetId = none
        ∨ extractSpreadsheetId spreadsheetId = some "") →
      jsTrim apiKey ≠ "" → resp.status = 404 →
      validateGoogleSheetConnection spreadsheetId apiKey resp
        = ⟨false, some "Spreadsheet not found."⟩) ∧
    (¬(extractSpreadsheetId spreadsheetId = none
        ∨ extractSpreadsheetId spreadsheetId = some "") →
      jsTrim apiKey ≠ "" → resp.ok = false → resp.status ≠ 403 → resp.status ≠ 404 →
      validateGoogleSheetConnection spreadsheetId apiKey resp
        = ⟨false, some ("Connection failed: " ++ resp.statusText)⟩) ∧
    (¬(extractSpreadsheetId spreadsheetId = none
        ∨ extractSpreadsheetId spreadsheetId = some "") →
      jsTrim apiKey ≠ "" → resp.ok = true →
      validateGoogleSheetConnection spreadsheetId apiKey resp
        = ⟨true, none⟩) := by
  refine ⟨?_, ?_, ?_, ?_, ?_, ?_⟩ <;>
    unfold validateGoogleSheetConnection <;> dsimp only
  · intro h; rw [if_pos h]
  · intro hid hkey
    rw [if_neg hid, if_pos (Or.inr hkey)]
  · intro hid hkey h403
    have hok : resp.ok = false := by simp [HttpResponse.ok, h403]
    rw [if_neg hid, if_neg (keyGuard_false _ hkey),
      if_pos (by simp [hok]), if_pos h403]
  · intro hid hkey h404
    have hok : resp.ok = false := by simp [HttpResponse.ok, h404]
    rw [if_neg hid, if_neg (keyGuard_false _ hkey),
      if_pos (by simp [hok]), if_neg (by simp [h404]), if_pos h404]
  · intro hid hkey hok h403 h404
    rw [if_neg hid, if_neg (keyGuard_false _ hkey),
      if_pos (by simp [hok]), if_neg h403, if_neg h404]
  · intro hid hkey hok
    rw [if_neg hid, if_neg (keyGuard_false _ hkey), if_neg (by simp [hok])]

/-- C7 witness: the 403 component applied to a concrete request. -/
theorem claim_C7_validate_mapping_witness :
    validateGoogleSheetConnection "abc" "k" ⟨403, "Forbidden", none⟩
      = ⟨false, some "Access denied. Check your API key and sheet permissions."⟩ :=
  (claim_C7_validate_mapping "abc" "k" ⟨403, "Forbidden", none⟩).2.2.1
    (by decide) (by decide) rfl

/-- C7 counterexample: at a forbidden response the code's reason
string differs from the one the claim prescribes. -/
theorem claim_C7_counterexample :
    validateGoogleSheetConnection "abc" "k" ⟨403, "Forbidden", none⟩
      ≠ ⟨false, some "Access denied — check sharing settings and credential validity"⟩ := by
  decide

/-! ### Claim C9 -/

/-- C9: with a resolvable identifier, a non-blank credential and a
successful transport response, the fetch fails with
`"No data found in the specified range"` exactly when the response
carries no rows (missing or empty `values`), and with
`"Sheet contains headers but no data rows"` exactly when it carries
exactly one row. -/
theorem claim_C9_empty_and_headers_only (spreadsheetId apiKey s : String)
    (resp : HttpResponse) (now : ℕ)
    (hid : extractSpreadsheetId spreadsheetId = some s) (hs : s ≠ "")
    (hkey : jsTrim apiKey ≠ "") (hok : resp.ok = true) :
    (fetchGoogleSheetData spreadsheetId apiKey resp now
        = .error "No data found in the specified range"
      ↔ (resp.values = none ∨ resp.values = some [])) ∧
    (fetchGoogleSheetData spreadsheetId apiKey resp now
        = .error "Sheet contains headers but no data rows"
      ↔ ∃ h, resp.values = some [h]) := by
  have hguard1 : ¬(extractSpreadsheetId spreadsheetId = none
      ∨ extractSpreadsheetId spreadsheetId = some "") := by
    rw [hid]
    rintro (h | h)
    · exact Option.noConfusion h
    · exact hs (Option.some.inj h)
  unfold fetchGoogleSheetData
  dsimp only
  rw [if_neg hguard1, if_neg (keyGuard_false _ hkey), if_neg (by simp [hok])]
  rcases hv : resp.values with _ | rows
  · simp
  · rcases rows with _ | ⟨hrow, rest⟩
    · simp
    · rcases rest with _ | ⟨r2, t⟩
      · simp [List.isEmpty]
      · simp [List.isEmpty]

/-- C9 witness: the theorem applied to a response with no `values`. -/
theorem claim_C9_empty_and_headers_only_witness :
    (fetchGoogleSheetData "abc" "key" ⟨200, "OK", none⟩ 0
        = .error "No data found in the specified range"
      ↔ ((⟨200, "OK", none⟩ : HttpResponse).values = none
          ∨ (⟨200, "OK", none⟩ : HttpResponse).values = some [])) ∧
    (fetchGoogleSheetData "abc" "key" ⟨200, "OK", none⟩ 0
        = .error "Sheet contains headers but no data rows"
      ↔ ∃ h, (⟨200, "OK", none⟩ : HttpResponse).values = some [h]) :=
  claim_C9_empty_and_headers_only "abc" "key" "abc" ⟨200, "OK", none⟩ 0
    (by decide) (by decide) (by decide) (by decide)

/-! ### Claim C10 -/

/-- C10: `extractSpreadsheetId` maps the empty string to the empty
string (bare-identifier branch), yet both `fetchGoogleSheetData` and
`validateGoogleSheetConnection` reject it with the invalid-identifier
error for every credential and response, because they test the
extracted identifier for falsiness — so an empty input never reaches
the network. -/
theorem claim_C10_empty_input_rejected (apiKey : String)
    (resp : HttpResponse) (now : ℕ) :
    extractSpreadsheetId "" = some ""
      ∧ fetchGoogleSheetData "" apiKey resp now
          = .error "Invalid spreadsheet ID or URL"
      ∧ validateGoogleSheetConnection "" apiKey resp
          = ⟨false, some "Invalid spreadsheet ID or URL"⟩ := by
  refine ⟨rfl, ?_, ?_⟩
  · unfold fetchGoogleSheetData
    dsimp only
    rw [if_pos (Or.inr (show extractSpreadsheetId "" = some "" from rfl))]
  · unfold validateGoogleSheetConnection
    dsimp only
    rw [if_pos (Or.inr (show extractSpreadsheetId "" = some "" from rfl))]

/-! ### Claim C1 -/

/-- C1: on the header row `deal_id, deal_name, broker_name,
deal_value, status` with data rows `["D1","Acme","Jo","$2,000","Open"]`
and `["","","","",""]`, the pipeline returns exactly the one record
`{deal_id: "D1", deal_name: "Acme", broker_name: "Jo",
deal_value: 2000, status: "Open"}`; the blank second row produces no
record, whatever the timestamp. -/
theorem claim_C1_end_to_end (now : ℕ) :
    fetchGoogleSheetData "sheet1" "key"
      ⟨200, "OK", some
        [[JSVal.str "deal_id", JSVal.str "deal_name", JSVal.str "broker_name",
          JSVal.str "deal_value", JSVal.str "status"],
         [JSVal.str "D1", JSVal.str "Acme", JSVal.str "Jo",
          JSVal.str "$2,000", JSVal.str "Open"],
         [JSVal.str "", JSVal.str "", JSVal.str "", JSVal.str "", JSVal.str ""]]⟩
      now
    = .ok [[("deal_id", JSVal.str "D1"), ("deal_name", JSVal.str "Acme"),
            ("broker_name", JSVal.str "Jo"), ("deal_value", JSVal.num 2000),
            ("status", JSVal.str "Open")]] := by
  have hfirst : normalizeRow
      ["deal_id", "deal_name", "broker_name", "deal_value", "status"]
      [JSVal.str "D1", JSVal.str "Acme", JSVal.str "Jo",
        JSVal.str "$2,000", JSVal.str "Open"] now 0
      = [("deal_id", JSVal.str "D1"), ("deal_name", JSVal.str "Acme"),
         ("broker_name", JSVal.str "Jo"), ("deal_value", JSVal.num 2000),
         ("status", JSVal.str "Open")] := rfl
  have hblank : normalizeRow
      ["deal_id", "deal_name", "broker_name", "deal_value", "status"]
      [JSVal.str "", JSVal.str "", JSVal.str "", JSVal.str "", JSVal.str ""] now 1
      = [("deal_id", JSVal.str (synthDealId now 1)),
         ("deal_name", JSVal.str "Unnamed Deal"),
         ("broker_name", JSVal.str "Unknown"), ("deal_value", JSVal.num 0),
         ("status", JSVal.str "Unknown")] := rfl
  have h1 : filterPred [("deal_id", JSVal.str "D1"), ("deal_name", JSVal.str "Acme"),
      ("broker_name", JSVal.str "Jo"), ("deal_value", JSVal.num 2000),
      ("status", JSVal.str "Open")] = true := by decide
  have hfp : filterPred [("deal_id", JSVal.str (synthDealId now 1)),
      ("deal_name", JSVal.str "Unnamed Deal"), ("broker_name", JSVal.str "Unknown"),
      ("deal_value", JSVal.num 0), ("status", JSVal.str "Unknown")] = false := by
    unfold filterPred
    simp [objGet, jsGtZero, toNumber]
  have hmain : processRows
      ["deal_id", "deal_name", "broker_name", "deal_value", "status"]
      [[JSVal.str "D1", JSVal.str "Acme", JSVal.str "Jo",
        JSVal.str "$2,000", JSVal.str "Open"],
       [JSVal.str "", JSVal.str "", JSVal.str "", JSVal.str "", JSVal.str ""]] now
      = [[("deal_id", JSVal.str "D1"), ("deal_name", JSVal.str "Acme"),
          ("broker_name", JSVal.str "Jo"), ("deal_value", JSVal.num 2000),
          ("status", JSVal.str "Open")]] := by
    show List.filter filterPred
      [normalizeRow ["deal_id", "deal_name", "broker_name", "deal_value", "status"]
        [JSVal.str "D1", JSVal.str "Acme", JSVal.str "Jo",
          JSVal.str "$2,000", JSVal.str "Open"] now 0,
       normalizeRow ["deal_id", "deal_name", "broker_name", "deal_value", "status"]
        [JSVal.str "", JSVal.str "", JSVal.str "", JSVal.str "", JSVal.str ""] now 1]
      = _
    rw [hfirst, hblank]
    simp [List.filter_cons, h1, hfp]
  show Except.ok (processRows
      ["deal_id", "deal_name", "broker_name", "deal_value", "status"]
      [[JSVal.str "D1", JSVal.str "Acme", JSVal.str "Jo",
        JSVal.str "$2,000", JSVal.str "Open"],
       [JSVal.str "", JSVal.str "", JSVal.str "", JSVal.str "", JSVal.str ""]] now)
    = _
  rw [hmain]

/-! ### Claim C6 -/

theorem matchCapture_cons_ne (l : Char) (ls : List Char) (c : Char) (cs : List Char)
    (h : c ≠ l) : matchCapture (l :: ls) (c :: cs) = none := by
  simp [matchCapture, h]

theorem findCapture_cons_of_none (lit : List Char) (c : Char) (cs : List Char)
    (h : matchCapture lit (c :: cs) = none) :
    findCapture lit (c :: cs) = findCapture lit cs := by
  simp [findCapture, h]

theorem findCapture_cons_of_some (lit : List Char) (c : Char) (cs r : List Char)
    (h : matchCapture lit (c :: cs) = some r) :
    findCapture lit (c :: cs) = some r := by
  simp [findCapture, h]

theorem matchCapture_none_of_mem_not_mem (a : Char) :
    ∀ (lit s : List Char), a ∈ lit → a ∉ s → matchCapture lit s = none := by
  intro lit
  induction lit with
  | nil => intro s ha _; cases ha
  | cons l ls ih =>
      intro s ha hs
      cases s with
      | nil => rfl
      | cons c cs =>
          simp only [List.mem_cons, not_or] at hs
          by_cases hc : c = l
          · have hal : a ≠ l := hc ▸ hs.1
            have ha' : a ∈ ls := by
              rcases List.mem_cons.mp ha with h1 | h1
              · exact absurd h1 hal
              · exact h1
            simp only [matchCapture, if_pos hc]
            exact ih cs ha' hs.2
          · exact matchCapture_cons_ne _ _ _ _ hc

theorem findCapture_none_of_mem_not_mem (a : Char) (lit : List Char) (ha : a ∈ lit) :
    ∀ s : List Char, a ∉ s → findCapture lit s = none := by
  intro s
  induction s with
  | nil => intro _; rfl
  | cons c cs ih =>
      intro hs
      simp only [List.mem_cons, not_or] at hs
      rw [findCapture_cons_of_none _ _ _
        (matchCapture_none_of_mem_not_mem a lit (c :: cs) ha (by simp [hs.1, hs.2]))]
      exact ih hs.2

theorem findCapture_append_not_head (h : Char) (ls : List Char) :
    ∀ (l : List Char), (∀ c ∈ l, c ≠ h) →
      ∀ s, findCapture (h :: ls) (l ++ s) = findCapture (h :: ls) s := by
  intro l
  induction l with
  | nil => intro _ s; rfl
  | cons c t ih =>
      intro hall s
      rw [List.cons_append, findCapture_cons_of_none _ _ _
        (matchCapture_cons_ne _ _ _ _ (hall c (by simp))),
        ih (fun x hx => hall x (List.mem_cons_of_mem _ hx)) s]

theorem matchCapture_self_append (lit : List Char) :
    ∀ s, matchCapture lit (lit ++ s) = matchCapture [] s := by
  induction lit with
  | nil => intro s; rfl
  | cons l ls ih => intro s; simp [matchCapture, ih]

theorem takeWhile_append_of_not (id : List Char) (hid : ∀ c ∈ id, isIdChar c = true)
    (r : Char) (hr : isIdChar r = false) (t : List Char) :
    (id ++ r :: t).takeWhile isIdChar = id := by
  induction id with
  | nil => simp [List.takeWhile_cons, hr]
  | cons c cs ih =>
      rw [List.cons_append, List.takeWhile_cons, if_pos (hid c (by simp)),
        ih (fun x hx => hid x (List.mem_cons_of_mem _ hx))]

theorem matchCapture_extract (lit id : List Char) (hid : ∀ c ∈ id, isIdChar c = true)
    (hne : id ≠ []) (r : Char) (hr : isIdChar r = false) (t : List Char) :
    matchCapture lit (lit ++ (id ++ r :: t)) = some id := by
  rw [matchCapture_self_append]
  simp only [matchCapture, takeWhile_append_of_not id hid r hr t]
  simp [List.isEmpty_iff, hne]

theorem matchCapture_cons_cons (l : Char) (ls cs : List Char) :
    matchCapture (l :: ls) (l :: cs) = matchCapture ls cs := by
  simp [matchCapture]

theorem findCapture_self (l : Char) (ls s r : List Char)
    (h : matchCapture (l :: ls) ((l :: ls) ++ s) = some r) :
    findCapture (l :: ls) ((l :: ls) ++ s) = some r := by
  rw [List.cons_append]
  apply findCapture_cons_of_some
  rw [← List.cons_append]
  exact h

theorem toList_append (a b : String) : (a ++ b).toList = a.toList ++ b.toList :=
  String.data_append a b

theorem extract_shape_spreadsheets (id : String) (hne : id.toList ≠ [])
    (hid : ∀ c ∈ id.toList, isIdChar c = true) :
    extractSpreadsheetId ("x/spreadsheets/d/" ++ id ++ "?e=1") = some id := by
  have htl : ("x/spreadsheets/d/" ++ id ++ "?e=1").toList
      = ['x'] ++ ("/spreadsheets/d/".toList ++ (id.toList ++ "?e=1".toList)) := rfl
  have hf1 : findCapture "/spreadsheets/d/".toList
      (['x'] ++ ("/spreadsheets/d/".toList ++ (id.toList ++ "?e=1".toList)))
      = some id.toList := by
    rw [show ("/spreadsheets/d/" : String).toList
        = '/' :: "spreadsheets/d/".toList from rfl]
    rw [findCapture_append_not_head '/' _ ['x'] (by decide)]
    exact findCapture_self _ _ _ _
      (matchCapture_extract _ _ hid hne '?' (by decide) _)
  unfold extractSpreadsheetId
  rw [htl, hf1]
  have hcontains : (['x'] ++ ("/spreadsheets/d/".toList
      ++ (id.toList ++ "?e=1".toList))).contains '/' = true := by
    simp [List.contains_cons]
  rw [if_neg (by simp [hcontains])]
  rfl

theorem not_slash_of_idChars (id : String) (hid : ∀ c ∈ id.toList, isIdChar c = true)
    (t : List Char) (ht : '/' ∉ t) : '/' ∉ id.toList ++ t := by
  intro hmem
  rcases List.mem_append.mp hmem with h | h
  · have := hid '/' h
    simp [isIdChar] at this
  · exact ht h

theorem extract_shape_d (id : String) (hne : id.toList ≠ [])
    (hid : ∀ c ∈ id.toList, isIdChar c = true) :
    extractSpreadsheetId ("x/d/" ++ id ++ "?e=1") = some id := by
  have hslash : '/' ∉ id.toList ++ ("?e=1" : String).toList :=
    not_slash_of_idChars id hid _ (by decide)
  have htl : ("x/d/" ++ id ++ "?e=1").toList
      = ['x'] ++ ("/d/".toList ++ (id.toList ++ "?e=1".toList)) := rfl
  have hf1 : findCapture "/spreadsheets/d/".toList
      (['x'] ++ ("/d/".toList ++ (id.toList ++ "?e=1".toList))) = none := by
    rw [show ("/spreadsheets/d/" : String).toList
        = '/' :: "spreadsheets/d/".toList from rfl]
    rw [findCapture_append_not_head '/' _ ['x'] (by decide)]
    show findCapture _ ('/' :: ('d' :: '/' :: (id.toList ++ "?e=1".toList))) = none
    rw [findCapture_cons_of_none _ _ _ (by
      rw [matchCapture_cons_cons]
      exact matchCapture_cons_ne _ _ _ _ (by decide))]
    show findCapture _ (['d'] ++ ('/' :: (id.toList ++ "?e=1".toList))) = none
    rw [findCapture_append_not_head '/' _ ['d'] (by decide)]
    rw [findCapture_cons_of_none _ _ _ (by
      rw [matchCapture_cons_cons]
      exact matchCapture_none_of_mem_not_mem '/' _ _ (by decide) hslash)]
    exact findCapture_none_of_mem_not_mem '/' _ (by decide) _ hslash
  have hf2 : findCapture "/d/".toList
      (['x'] ++ ("/d/".toList ++ (id.toList ++ "?e=1".toList)))
      = some id.toList := by
    rw [show ("/d/" : String).toList = '/' :: "d/".toList from rfl]
    rw [findCapture_append_not_head '/' _ ['x'] (by decide)]
    exact findCapture_self _ _ _ _
      (matchCapture_extract _ _ hid hne '?' (by decide) _)
  unfold extractSpreadsheetId
  rw [htl, hf1, hf2]
  have hcontains : (['x'] ++ ("/d/".toList
      ++ (id.toList ++ "?e=1".toList))).contains '/' = true := by
    simp [List.contains_cons]
  rw [if_neg (by simp [hcontains])]
  rfl

theorem extract_shape_query (id : String) (hne : id.toList ≠ [])
    (hid : ∀ c ∈ id.toList, isIdChar c = true) :
    extractSpreadsheetId ("x/v?id=" ++ id ++ "&y") = some id := by
  have hslash : '/' ∉ id.toList ++ ("&y" : String).toList :=
    not_slash_of_idChars id hid _ (by decide)
  have htl : ("x/v?id=" ++ id ++ "&y").toList
      = ['x', '/', 'v', '?'] ++ ("id=".toList ++ (id.toList ++ "&y".toList)) := rfl
  have hscan : ∀ lit : List Char, lit = '/' :: "spreadsheets/d/".toList
      ∨ lit = '/' :: "d/".toList →
      findCapture lit
        (['x', '/', 'v', '?'] ++ ("id=".toList ++ (id.toList ++ "&y".toList)))
        = none := by
    intro lit hlit
    have hhead : ∃ ls, lit = '/' :: ls := by
      rcases hlit with h | h <;> exact ⟨_, h⟩
    obtain ⟨ls, rfl⟩ := hhead
    show findCapture _ (['x'] ++ ('/' :: (['v', '?'] ++ ("id=".toList
      ++ (id.toList ++ "&y".toList))))) = none
    rw [findCapture_append_not_head '/' _ ['x'] (by decide)]
    rw [findCapture_cons_of_none _ _ _ (by
      rw [matchCapture_cons_cons]
      rcases hlit with h | h <;> rw [List.cons.injEq] at h <;> rw [h.2] <;>
        exact matchCapture_cons_ne _ _ _ _ (by decide))]
    show findCapture _ (['v', '?', 'i', 'd', '='] ++ (id.toList ++ "&y".toList)) = none
    rw [findCapture_append_not_head '/' _ ['v', '?', 'i', 'd', '='] (by decide)]
    exact findCapture_none_of_mem_not_mem '/' _ (List.mem_cons_self _ _) _ hslash
  have hf1 : findCapture "/spreadsheets/d/".toList
      (['x', '/', 'v', '?'] ++ ("id=".toList ++ (id.toList ++ "&y".toList)))
      = none :=
    hscan _ (Or.inl rfl)
  have hf2 : findCapture "/d/".toList
      (['x', '/', 'v', '?'] ++ ("id=".toList ++ (id.toList ++ "&y".toList)))
      = none :=
    hscan _ (Or.inr rfl)
  have hf3 : findCapture "id=".toList
      (['x', '/', 'v', '?'] ++ ("id=".toList ++ (id.toList ++ "&y".toList)))
      = some id.toList := by
    rw [show ("id=" : String).toList = 'i' :: "d=".toList from rfl]
    rw [findCapture_append_not_head 'i' _ ['x', '/', 'v', '?'] (by decide)]
    exact findCapture_self _ _ _ _
      (matchCapture_extract _ _ hid hne '&' (by decide) _)
  unfold extractSpreadsheetId
  rw [htl, hf1, hf2, hf3]
  have hcontains : (['x', '/', 'v', '?'] ++ ("id=".toList
      ++ (id.toList ++ "&y".toList))).contains '/' = true := by
    simp [List.contains_cons]
  rw [if_neg (by simp [hcontains])]
  rfl

theorem extract_bare (s : String) (h1 : s.toList.contains '/' = false)
    (h2 : s.toList.contains '?' = false) :
    extractSpreadsheetId s = some (jsTrim s) := by
  unfold extractSpreadsheetId
  rw [h1, h2]
  simp

theorem extract_no_match (s : String)
    (hsep : s.toList.contains '/' = true ∨ s.toList.contains '?' = true)
    (hf1 : findCapture "/spreadsheets/d/".toList s.toList = none)
    (hf2 : findCapture "/d/".toList s.toList = none)
    (hf3 : findCapture "id=".toList s.toList = none) :
    extractSpreadsheetId s = none := by
  unfold extractSpreadsheetId
  rw [hf1, hf2, hf3]
  rcases hsep with h | h <;> rw [h] <;> simp

theorem extract_order :
    extractSpreadsheetId "x/d/AAA/spreadsheets/d/BBB" = some "BBB" := by decide

/-- C6: a bare input (no path or query separator) is returned
trimmed; for each of the three supported URL shapes the embedded
identifier is extracted despite surrounding path/query noise; the
patterns are tried in order with the first match winning (an input
containing both a `/d/` and a later `spreadsheets/d/` segment yields
the latter's capture); and an input with separators that matches no
pattern yields `none`. -/
theorem claim_C6_locator :
    (∀ s : String, s.toList.contains '/' = false → s.toList.contains '?' = false →
      extractSpreadsheetId s = some (jsTrim s)) ∧
    (∀ id : String, id.toList ≠ [] → (∀ c ∈ id.toList, isIdChar c = true) →
      extractSpreadsheetId ("x/spreadsheets/d/" ++ id ++ "?e=1") = some id ∧
      extractSpreadsheetId ("x/d/" ++ id ++ "?e=1") = some id ∧
      extractSpreadsheetId ("x/v?id=" ++ id ++ "&y") = some id) ∧
    extractSpreadsheetId "x/d/AAA/spreadsheets/d/BBB" = some "BBB" ∧
    (∀ s : String,
      s.toList.contains '/' = true ∨ s.toList.contains '?' = true →
      findCapture "/spreadsheets/d/".toList s.toList = none →
      findCapture "/d/".toList s.toList = none →
      findCapture "id=".toList s.toList = none →
      extractSpreadsheetId s = none) :=
  ⟨extract_bare,
    fun id hne hid =>
      ⟨extract_shape_spreadsheets id hne hid, extract_shape_d id hne hid,
        extract_shape_query id hne hid⟩,
    extract_order,
    extract_no_match⟩

/-- C6 witness: the bare branch at `"abc"` and the first URL shape
at the identifier `"ID9"`. -/
theorem claim_C6_locator_witness :
    extractSpreadsheetId "abc" = some (jsTrim "abc") ∧
    extractSpreadsheetId ("x/spreadsheets/d/" ++ "ID9" ++ "?e=1") = some "ID9" :=
  ⟨claim_C6_locator.1 "abc" (by decide) (by decide),
    (claim_C6_locator.2.1 "ID9" (by decide) (by decide)).1⟩
